import Mathlib

/-!
Shallow embedding of `CuboidToEllipsoid.py` (function `plot_cuboid_and_ellipsoid`).

The geometry is embedded over the real numbers: the cuboid vertex list, the
fixed edge-index list, the ellipsoid semi-axes `rx, ry, rz`, the parametric
surface sample grid, and the sequence of drawing commands issued to the
rendering backend (modelled as an inductive `DrawCmd`).
-/

/-- Step 3 of the source: the hard-coded edge index pairs into `corners`. -/
def edges : List (ℕ × ℕ) :=
  [(0, 1), (0, 2), (0, 4),
   (1, 3), (1, 5),
   (2, 3), (2, 6),
   (3, 7),
   (4, 5), (4, 6),
   (5, 7),
   (6, 7)]

noncomputable section

/-- The sign choices `(-1, 1)` iterated by the vertex comprehension. -/
def signList : List ℝ := [-1, 1]

/-- Step 2 of the source: cuboid vertices, all combinations of
`(±hx, ±hy, ±hz)` with `hx = a/2, hy = b/2, hz = c/2`; the comprehension runs
the sign of X outermost, then Y, then Z innermost. -/
def corners (a b c : ℝ) : List (ℝ × ℝ × ℝ) :=
  signList.flatMap fun sx =>
    signList.flatMap fun sy =>
      signList.map fun sz => (sx * (a / 2), sy * (b / 2), sz * (c / 2))

/-- Step 4 of the source: the factor `k = sqrt(3) / 2`. -/
def k : ℝ := Real.sqrt 3 / 2

/-- Ellipsoid semi-axis along X: `rx = k * a`. -/
def rx (a : ℝ) : ℝ := k * a

/-- Ellipsoid semi-axis along Y: `ry = k * b`. -/
def ry (b : ℝ) : ℝ := k * b

/-- Ellipsoid semi-axis along Z: `rz = k * c`. -/
def rz (c : ℝ) : ℝ := k * c

/-- `np.linspace lo hi n`: `n` evenly spaced samples from `lo` to `hi`
inclusive, the `i`-th being `lo + (hi - lo) * i / (n - 1)`. -/
def linspace (lo hi : ℝ) (n : ℕ) : List ℝ :=
  (List.range n).map fun i : ℕ => lo + (hi - lo) * (i : ℝ) / ((n : ℝ) - 1)

/-- Step 8 of the source: `u = np.linspace(0, 2π, 80)` (azimuth grid). -/
def uGrid : List ℝ := linspace 0 (2 * Real.pi) 80

/-- Step 8 of the source: `v = np.linspace(0, π, 80)` (polar grid). -/
def vGrid : List ℝ := linspace 0 Real.pi 80

/-- One parametric surface point of step 8:
`X = rx sin v cos u`, `Y = ry sin v sin u`, `Z = rz cos v`. -/
def surfacePoint (a b c uu vv : ℝ) : ℝ × ℝ × ℝ :=
  (rx a * Real.sin vv * Real.cos uu,
   ry b * Real.sin vv * Real.sin uu,
   rz c * Real.cos vv)

/-- The meshgrid of surface samples `(X_e, Y_e, Z_e)`: one row per `v` value,
one entry per `u` value. -/
def surfacePoints (a b c : ℝ) : List (List (ℝ × ℝ × ℝ)) :=
  vGrid.map fun vv => uGrid.map fun uu => surfacePoint a b c uu vv

/-- Step 9 of the source: `max_range = max(a, b, c)`. -/
def max_range (a b c : ℝ) : ℝ := max a (max b c)

/-- A drawing command issued to the rendering backend (matplotlib in the
source); labels and title strings are omitted, vertex labels are kept as the
vertex index. -/
inductive DrawCmd where
  | line (p q : ℝ × ℝ × ℝ)
  | scatter (p : ℝ × ℝ × ℝ)
  | text (p : ℝ × ℝ × ℝ) (label : ℕ)
  | surface (pts : List (List (ℝ × ℝ × ℝ)))
  | setLim (axisIdx : ℕ) (lo hi : ℝ)

/-- Step 6 of the source, one edge: look up `corners[i]` and `corners[j]`
(option-returning indexing) and draw the segment between them. -/
def edgeSegment (cs : List (ℝ × ℝ × ℝ)) (e : ℕ × ℕ) : Option DrawCmd :=
  match cs[e.1]?, cs[e.2]? with
  | some p, some q => some (DrawCmd.line p q)
  | _, _ => none

/-- Step 7 of the source: the optional vertex-annotation pass, a scatter
marker and a text label for each indexed vertex. -/
def annotCmds (cs : List (ℝ × ℝ × ℝ)) : List DrawCmd :=
  cs.enum.flatMap fun ip => [DrawCmd.scatter ip.2, DrawCmd.text ip.2 ip.1]

/-- Step 9 of the source: set the same symmetric limits on the three axes. -/
def limCmds (a b c : ℝ) : List DrawCmd :=
  [0, 1, 2].map fun axisIdx =>
    DrawCmd.setLim axisIdx (-(max_range a b c) / 2) (max_range a b c / 2)

/-- Whether a drawing command belongs to the vertex-annotation pass. -/
def isAnnot : DrawCmd → Bool
  | DrawCmd.scatter _ => true
  | DrawCmd.text _ _ => true
  | _ => false

/-- The geometric quantities computed by `plot_cuboid_and_ellipsoid`. -/
structure Geometry where
  corners : List (ℝ × ℝ × ℝ)
  edges : List (ℕ × ℕ)
  rx : ℝ
  ry : ℝ
  rz : ℝ
  surface : List (List (ℝ × ℝ × ℝ))

/-- All geometric quantities computed in one call; the function body never
consults `annotate_vertices` for any of them. -/
def buildGeometry (a b c : ℝ) (annotate_vertices : Bool) : Geometry :=
  { corners := corners a b c
    edges := edges
    rx := rx a
    ry := ry b
    rz := rz c
    surface := surfacePoints a b c }

/-- The full call: the sequence of drawing commands issued, in program order
(edge segments, then the optional annotation pass, then the surface, then the
axis limits). -/
def plot_cuboid_and_ellipsoid (a b c : ℝ) (annotate_vertices : Bool) :
    List DrawCmd :=
  edges.filterMap (edgeSegment (corners a b c))
    ++ (if annotate_vertices then annotCmds (corners a b c) else [])
    ++ [DrawCmd.surface (surfacePoints a b c)]
    ++ limCmds a b c

/-- Decode of an index bit into a sign: bit `1` is `+1`, bit `0` is `-1`. -/
def sgnBit (bit : ℕ) : ℝ := if bit = 1 then 1 else -1

end

/-- The factor `k` squared is `3/4`. -/
theorem k_sq : k ^ 2 = 3 / 4 := by
  unfold k
  rw [div_pow, Real.sq_sqrt] <;> norm_num

/-- The factor `k` is positive. -/
theorem k_pos : 0 < k := by
  unfold k
  positivity

/-- Claim C1: for strictly positive dimensions, the vertex array is exactly
the 8 sign combinations of `(±a/2, ±b/2, ±c/2)`, without duplicates, in the
fixed order where the vertex of index `i = 4·bitX + 2·bitY + bitZ` carries the
sign `+` on an axis exactly when the corresponding bit is `1`. -/
theorem vertices_enumeration (a b c : ℝ) (ha : 0 < a) (hb : 0 < b)
    (hc : 0 < c) :
    corners a b c = (List.range 8).map (fun i =>
      (sgnBit (i / 4 % 2) * (a / 2), sgnBit (i / 2 % 2) * (b / 2),
        sgnBit (i % 2) * (c / 2))) ∧
    (corners a b c).length = 8 ∧
    (corners a b c).Nodup := by
  refine ⟨?_, ?_, ?_⟩
  · simp [corners, signList, sgnBit, List.range_succ]
  · simp [corners, signList]
  · simp only [corners, signList, List.flatMap_cons, List.flatMap_nil,
      List.map_cons, List.map_nil, List.append_nil, List.nil_append,
      List.cons_append, List.nodup_cons, List.mem_cons, List.not_mem_nil,
      or_false, not_or, Prod.mk.injEq, not_and]
    norm_num
    repeat' constructor
    all_goals intros; linarith

/-- Claim C1 witness at `(a, b, c) = (1, 2, 3)`. -/
theorem vertices_enumeration_witness :
    (0:ℝ) < 1 ∧ (0:ℝ) < 2 ∧ (0:ℝ) < 3 ∧
    (corners 1 2 3 = (List.range 8).map (fun i =>
      (sgnBit (i / 4 % 2) * ((1:ℝ) / 2), sgnBit (i / 2 % 2) * ((2:ℝ) / 2),
        sgnBit (i % 2) * ((3:ℝ) / 2))) ∧
    (corners 1 2 3).length = 8 ∧
    (corners 1 2 3).Nodup) :=
  ⟨by norm_num, by norm_num, by norm_num,
    vertices_enumeration 1 2 3 (by norm_num) (by norm_num) (by norm_num)⟩

/-- Claim C2: the edge list is exactly the 12 fixed index pairs, independent
of the inputs; each pair joins indices differing in exactly one bit (their
xor is a power of two below 8), and among the index pairs `i < j < 8` the
edge list contains exactly those differing in one bit — no face or space
diagonal. -/
theorem edges_fixed_one_bit :
    edges = [(0, 1), (0, 2), (0, 4), (1, 3), (1, 5), (2, 3), (2, 6), (3, 7),
      (4, 5), (4, 6), (5, 7), (6, 7)] ∧
    edges.length = 12 ∧
    (∀ e ∈ edges, e.1 ^^^ e.2 = 1 ∨ e.1 ^^^ e.2 = 2 ∨ e.1 ^^^ e.2 = 4) ∧
    (∀ i < 8, ∀ j < 8,
      ((i, j) ∈ edges ↔
        (i < j ∧ (i ^^^ j = 1 ∨ i ^^^ j = 2 ∨ i ^^^ j = 4)))) := by
  refine ⟨rfl, rfl, ?_, ?_⟩ <;> decide

/-- Squares of the half-dimension over the matching semi-axis: `1/3`. -/
theorem term_sq (t x : ℝ) (ht : t ≠ 0) (hx : x = t / 2 ∨ x = -(t / 2)) :
    (x / (k * t)) ^ 2 = 1 / 3 := by
  have hk := k_sq
  have hk0 : k ≠ 0 := ne_of_gt k_pos
  rcases hx with h | h <;> subst h <;>
    · rw [div_pow, mul_pow, hk]
      field_simp
      ring

/-- Positive-sign instance of `term_sq`. -/
theorem half_sq (t : ℝ) (ht : t ≠ 0) : (t / 2 / (k * t)) ^ 2 = 1 / 3 :=
  term_sq t _ ht (Or.inl rfl)

/-- Negative-sign instance of `term_sq`. -/
theorem neg_half_sq (t : ℝ) (ht : t ≠ 0) : (-(t / 2) / (k * t)) ^ 2 = 1 / 3 :=
  term_sq t _ ht (Or.inr rfl)

/-- Claim C3: the computed semi-axes are `rx = (√3/2)·a`, `ry = (√3/2)·b`,
`rz = (√3/2)·c`, and consequently `rx : ry : rz = a : b : c`. -/
theorem semi_axes_formula (a b c : ℝ) (ha : 0 < a) (hb : 0 < b)
    (hc : 0 < c) :
    rx a = Real.sqrt 3 / 2 * a ∧
    ry b = Real.sqrt 3 / 2 * b ∧
    rz c = Real.sqrt 3 / 2 * c ∧
    rx a / ry b = a / b ∧ ry b / rz c = b / c ∧ rx a / rz c = a / c := by
  have hk0 : k ≠ 0 := ne_of_gt k_pos
  refine ⟨rfl, rfl, rfl, ?_, ?_, ?_⟩ <;>
    · simp only [rx, ry, rz]
      rw [mul_div_mul_left _ _ hk0]

/-- Claim C3 witness at `(a, b, c) = (1, 2, 3)`. -/
theorem semi_axes_formula_witness :
    (0:ℝ) < 1 ∧ (0:ℝ) < 2 ∧ (0:ℝ) < 3 ∧
    (rx 1 = Real.sqrt 3 / 2 * 1 ∧
    ry 2 = Real.sqrt 3 / 2 * 2 ∧
    rz 3 = Real.sqrt 3 / 2 * 3 ∧
    rx 1 / ry 2 = 1 / 2 ∧ ry 2 / rz 3 = 2 / 3 ∧ rx 1 / rz 3 = 1 / 3) :=
  ⟨by norm_num, by norm_num, by norm_num,
    semi_axes_formula 1 2 3 (by norm_num) (by norm_num) (by norm_num)⟩

/-- Claim C4: every computed vertex `(x, y, z)` satisfies
`(x/rx)² + (y/ry)² + (z/rz)² = 1`, i.e. lies on the ellipsoid surface. -/
theorem vertices_on_ellipsoid (a b c : ℝ) (ha : 0 < a) (hb : 0 < b)
    (hc : 0 < c) (x y z : ℝ) (hp : (x, y, z) ∈ corners a b c) :
    (x / rx a) ^ 2 + (y / ry b) ^ 2 + (z / rz c) ^ 2 = 1 := by
  simp only [corners, signList, List.flatMap_cons, List.flatMap_nil,
    List.map_cons, List.map_nil, List.append_nil, List.nil_append,
    List.cons_append, List.mem_cons, List.not_mem_nil, or_false,
    Prod.mk.injEq] at hp
  rcases hp with ⟨h1, h2, h3⟩ | ⟨h1, h2, h3⟩ | ⟨h1, h2, h3⟩ | ⟨h1, h2, h3⟩ |
    ⟨h1, h2, h3⟩ | ⟨h1, h2, h3⟩ | ⟨h1, h2, h3⟩ | ⟨h1, h2, h3⟩ <;>
    subst h1 <;> subst h2 <;> subst h3 <;>
    norm_num [rx, ry, rz, half_sq a ha.ne', neg_half_sq a ha.ne',
      half_sq b hb.ne', neg_half_sq b hb.ne',
      half_sq c hc.ne', neg_half_sq c hc.ne']

/-- Claim C4 witness at `(a, b, c) = (1, 2, 3)` and the first vertex
`(-(1/2), -1, -(3/2))`. -/
theorem vertices_on_ellipsoid_witness :
    (0:ℝ) < 1 ∧ (0:ℝ) < 2 ∧ (0:ℝ) < 3 ∧
    (-(1 / 2 : ℝ), -(2 / 2 : ℝ), -(3 / 2 : ℝ)) ∈ corners 1 2 3 ∧
    (-(1 / 2 : ℝ) / rx 1) ^ 2 + (-(2 / 2 : ℝ) / ry 2) ^ 2 +
      (-(3 / 2 : ℝ) / rz 3) ^ 2 = 1 :=
  ⟨by norm_num, by norm_num, by norm_num,
    by norm_num [corners, signList],
    vertices_on_ellipsoid 1 2 3 (by norm_num) (by norm_num) (by norm_num)
      (-(1 / 2)) (-(2 / 2)) (-(3 / 2)) (by norm_num [corners, signList])⟩

/-- Claim C5: scaling the dimensions by a positive factor `s` scales every
vertex coordinate and every semi-axis by exactly `s`, while the edge index
list and the semi-axis proportion (still `a : b : c`) are unchanged. -/
theorem scaling_equivariance (a b c s : ℝ) (ha : 0 < a) (hb : 0 < b)
    (hc : 0 < c) (hs : 0 < s) (fl : Bool) :
    corners (s * a) (s * b) (s * c) =
      (corners a b c).map (fun p => (s * p.1, s * p.2.1, s * p.2.2)) ∧
    rx (s * a) = s * rx a ∧ ry (s * b) = s * ry b ∧ rz (s * c) = s * rz c ∧
    (buildGeometry (s * a) (s * b) (s * c) fl).edges =
      (buildGeometry a b c fl).edges ∧
    rx (s * a) / ry (s * b) = a / b ∧
    ry (s * b) / rz (s * c) = b / c := by
  have hk0 : k ≠ 0 := ne_of_gt k_pos
  refine ⟨?_, ?_, ?_, ?_, rfl, ?_, ?_⟩
  · simp only [corners, signList, List.flatMap_cons, List.flatMap_nil,
      List.map_cons, List.map_nil, List.append_nil, List.cons_append,
      List.nil_append, List.cons.injEq, Prod.mk.injEq, and_true]
    repeat' constructor
    all_goals ring
  · simp only [rx]; ring
  · simp only [ry]; ring
  · simp only [rz]; ring
  · simp only [rx, ry]
    rw [mul_div_mul_left _ _ hk0, mul_div_mul_left _ _ hs.ne']
  · simp only [ry, rz]
    rw [mul_div_mul_left _ _ hk0, mul_div_mul_left _ _ hs.ne']

/-- Claim C5 witness at `(a, b, c) = (1, 2, 3)`, factor `s = 2`, flag
`true`. -/
theorem scaling_equivariance_witness :
    (0:ℝ) < 1 ∧ (0:ℝ) < 2 ∧ (0:ℝ) < 3 ∧ (0:ℝ) < 2 ∧
    (corners (2 * 1) (2 * 2) (2 * 3) =
      (corners 1 2 3).map (fun p => (2 * p.1, 2 * p.2.1, 2 * p.2.2)) ∧
    rx (2 * 1) = 2 * rx 1 ∧ ry (2 * 2) = 2 * ry 2 ∧ rz (2 * 3) = 2 * rz 3 ∧
    (buildGeometry (2 * 1) (2 * 2) (2 * 3) true).edges =
      (buildGeometry 1 2 3 true).edges ∧
    rx (2 * 1) / ry (2 * 2) = 1 / 2 ∧
    ry (2 * 2) / rz (2 * 3) = 2 / 3) :=
  ⟨by norm_num, by norm_num, by norm_num, by norm_num,
    scaling_equivariance 1 2 3 2 (by norm_num) (by norm_num) (by norm_num)
      (by norm_num) true⟩

/-- Claim C6: the surface samples are exactly
`(rx sin v cos u, ry sin v sin u, rz cos v)` over the regular grids
`u ∈ linspace 0 2π 80` and `v ∈ linspace 0 π 80` (the `i`-th grid values
being `2πi/79` and `πi/79`); at `v = 0` and `v = π` the parametrization is
at the poles `(0, 0, ±rz)`, whatever `u` is, so the first and last sample
rows are constant pole rows. -/
theorem surface_parametrization (a b c : ℝ) (ha : 0 < a) (hb : 0 < b)
    (hc : 0 < c) (i : ℕ) (hi : i < 80) (uu : ℝ) :
    uGrid.length = 80 ∧ vGrid.length = 80 ∧
    uGrid[i]? = some (2 * Real.pi * i / 79) ∧
    vGrid[i]? = some (Real.pi * i / 79) ∧
    surfacePoints a b c = vGrid.map (fun vv => uGrid.map fun uw =>
      (rx a * Real.sin vv * Real.cos uw, ry b * Real.sin vv * Real.sin uw,
        rz c * Real.cos vv)) ∧
    surfacePoint a b c uu 0 = (0, 0, rz c) ∧
    surfacePoint a b c uu Real.pi = (0, 0, -rz c) ∧
    (surfacePoints a b c)[0]? = some (List.replicate 80 (0, 0, rz c)) ∧
    (surfacePoints a b c)[79]? = some (List.replicate 80 (0, 0, -rz c)) := by
  have hulen : uGrid.length = 80 := by
    simp only [uGrid, linspace, List.length_map, List.length_range]
  have hvlen : vGrid.length = 80 := by
    simp only [vGrid, linspace, List.length_map, List.length_range]
  refine ⟨hulen, hvlen, ?_, ?_, rfl, ?_, ?_, ?_, ?_⟩
  · simp only [uGrid, linspace, List.getElem?_map, List.getElem?_range, hi,
      if_true, Option.map_some']
    norm_num
    try ring
  · simp only [vGrid, linspace, List.getElem?_map, List.getElem?_range, hi,
      if_true, Option.map_some']
    norm_num
    try ring
  · simp [surfacePoint]
  · simp [surfacePoint]
  · have h0 : vGrid[0]? = some 0 := by
      simp only [vGrid, linspace, List.getElem?_map, List.getElem?_range]
      norm_num
    simp only [surfacePoints, List.getElem?_map, h0, Option.map_some']
    have hf : (fun uw => surfacePoint a b c uw 0) =
        fun _ : ℝ => ((0:ℝ), (0:ℝ), rz c) := by
      funext uw
      simp [surfacePoint]
    rw [hf, List.map_const', hulen]
  · have h79 : vGrid[79]? = some Real.pi := by
      simp only [vGrid, linspace, List.getElem?_map, List.getElem?_range]
      norm_num
    simp only [surfacePoints, List.getElem?_map, h79, Option.map_some']
    have hf : (fun uw => surfacePoint a b c uw Real.pi) =
        fun _ : ℝ => ((0:ℝ), (0:ℝ), -rz c) := by
      funext uw
      simp [surfacePoint]
    rw [hf, List.map_const', hulen]

/-- Claim C6 witness at `(a, b, c) = (1, 2, 3)`, grid index `5`, azimuth
`u = 0`. -/
theorem surface_parametrization_witness :
    (0:ℝ) < 1 ∧ (0:ℝ) < 2 ∧ (0:ℝ) < 3 ∧ 5 < 80 ∧
    (uGrid.length = 80 ∧ vGrid.length = 80 ∧
    uGrid[5]? = some (2 * Real.pi * 5 / 79) ∧
    vGrid[5]? = some (Real.pi * 5 / 79) ∧
    surfacePoints 1 2 3 = vGrid.map (fun vv => uGrid.map fun uw =>
      (rx 1 * Real.sin vv * Real.cos uw, ry 2 * Real.sin vv * Real.sin uw,
        rz 3 * Real.cos vv)) ∧
    surfacePoint 1 2 3 0 0 = (0, 0, rz 3) ∧
    surfacePoint 1 2 3 0 Real.pi = (0, 0, -rz 3) ∧
    (surfacePoints 1 2 3)[0]? = some (List.replicate 80 (0, 0, rz 3)) ∧
    (surfacePoints 1 2 3)[79]? = some (List.replicate 80 (0, 0, -rz 3))) :=
  ⟨by norm_num, by norm_num, by norm_num, by norm_num,
    surface_parametrization 1 2 3 (by norm_num) (by norm_num) (by norm_num)
      5 (by norm_num) 0⟩

/-- An edge segment command, when produced, is a line command — never part of
the annotation pass. -/
theorem edgeSegment_not_annot (cs : List (ℝ × ℝ × ℝ)) (e : ℕ × ℕ)
    (d : DrawCmd) (h : edgeSegment cs e = some d) : isAnnot d = false := by
  unfold edgeSegment at h
  rcases h1 : cs[e.1]? with _ | p <;> rcases h2 : cs[e.2]? with _ | q <;>
    rw [h1, h2] at h <;> simp at h
  rw [← h]
  rfl

/-- Every command of the annotation pass is a scatter or text command. -/
theorem annotCmds_annot (cs : List (ℝ × ℝ × ℝ)) (d : DrawCmd)
    (h : d ∈ annotCmds cs) : isAnnot d = true := by
  rcases List.mem_flatMap.mp h with ⟨ip, _, hm⟩
  rcases List.mem_cons.mp hm with rfl | hm'
  · rfl
  · rcases List.mem_cons.mp hm' with rfl | hm''
    · rfl
    · exact absurd hm'' (List.not_mem_nil _)

/-- Claim C7: the `annotate_vertices` flag has no effect on any computed
geometric quantity — the geometry bundle is identical for both flag values,
a run with the flag differs from a run without it only by the extra
scatter/text pass, and a run without the flag issues no annotation command
at all. -/
theorem annotate_flag_no_geometry_effect (a b c : ℝ) :
    buildGeometry a b c true = buildGeometry a b c false ∧
    (plot_cuboid_and_ellipsoid a b c true).filter (fun d => !(isAnnot d)) =
      plot_cuboid_and_ellipsoid a b c false ∧
    (plot_cuboid_and_ellipsoid a b c false).filter (fun d => isAnnot d) =
      [] := by
  have hE : (edges.filterMap (edgeSegment (corners a b c))).filter
      (fun d => !(isAnnot d)) =
      edges.filterMap (edgeSegment (corners a b c)) := by
    refine List.filter_eq_self.mpr ?_
    intro d hd
    rcases List.mem_filterMap.mp hd with ⟨e, _, hsome⟩
    simp [edgeSegment_not_annot _ _ _ hsome]
  have hE2 : (edges.filterMap (edgeSegment (corners a b c))).filter
      (fun d => isAnnot d) = [] := by
    refine List.filter_eq_nil_iff.mpr ?_
    intro d hd
    rcases List.mem_filterMap.mp hd with ⟨e, _, hsome⟩
    simp [edgeSegment_not_annot _ _ _ hsome]
  have hA : (annotCmds (corners a b c)).filter (fun d => !(isAnnot d)) =
      [] := by
    refine List.filter_eq_nil_iff.mpr ?_
    intro d hd
    simp [annotCmds_annot _ _ hd]
  refine ⟨rfl, ?_, ?_⟩
  · unfold plot_cuboid_and_ellipsoid
    simp only [if_true, if_false, List.filter_append, hE, hA]
    simp [isAnnot, limCmds]
  · unfold plot_cuboid_and_ellipsoid
    simp only [if_true, if_false, List.filter_append, hE2]
    simp [isAnnot, limCmds]

/-- Claim C8: the computation is a pure, deterministic function of its
inputs — equal inputs give identical drawing-command sequences and identical
geometry bundles. -/
theorem deterministic_output (a a' b b' c c' : ℝ) (fl fl' : Bool)
    (h1 : a = a') (h2 : b = b') (h3 : c = c') (h4 : fl = fl') :
    plot_cuboid_and_ellipsoid a b c fl =
      plot_cuboid_and_ellipsoid a' b' c' fl' ∧
    buildGeometry a b c fl = buildGeometry a' b' c' fl' := by
  subst h1; subst h2; subst h3; subst h4
  exact ⟨rfl, rfl⟩

/-- Claim C8 witness: two calls at `(1, 2, 3, true)` agree. -/
theorem deterministic_output_witness :
    plot_cuboid_and_ellipsoid 1 2 3 true =
      plot_cuboid_and_ellipsoid 1 2 3 true ∧
    buildGeometry 1 2 3 true = buildGeometry 1 2 3 true :=
  deterministic_output 1 1 2 2 3 3 true true rfl rfl rfl rfl

/-- Claim C9: every vertex index used by the edge list is below 8, the length
of the vertex array, so each option-returning access `corners[i]` made while
drawing edges succeeds and every edge segment is produced. -/
theorem edge_indices_in_bounds (a b c : ℝ) :
    (corners a b c).length = 8 ∧
    (edges.all fun e => decide (e.1 < 8) && decide (e.2 < 8)) = true ∧
    (edges.all fun e => ((corners a b c)[e.1]?).isSome &&
      ((corners a b c)[e.2]?).isSome) = true ∧
    (edges.all fun e => (edgeSegment (corners a b c) e).isSome) = true := by
  have hlen : (corners a b c).length = 8 := by simp [corners, signList]
  have h8 : ∀ e ∈ edges, e.1 < 8 ∧ e.2 < 8 := by decide
  have hsome : ∀ e ∈ edges, ((corners a b c)[e.1]?).isSome = true ∧
      ((corners a b c)[e.2]?).isSome = true := by
    intro e he
    constructor
    · rw [List.getElem?_eq_getElem (by rw [hlen]; exact (h8 e he).1)]
      rfl
    · rw [List.getElem?_eq_getElem (by rw [hlen]; exact (h8 e he).2)]
      rfl
  refine ⟨hlen, by decide, ?_, ?_⟩
  · rw [List.all_eq_true]
    intro e he
    rw [Bool.and_eq_true]
    exact hsome e he
  · rw [List.all_eq_true]
    intro e he
    rcases Option.isSome_iff_exists.mp (hsome e he).1 with ⟨p, hp⟩
    rcases Option.isSome_iff_exists.mp (hsome e he).2 with ⟨q, hq⟩
    unfold edgeSegment
    rw [hp, hq]
    rfl

/-- Claim C10: the three axis limits are set to the symmetric interval
`[-max(a,b,c)/2, max(a,b,c)/2]`; the largest semi-axis equals
`(√3/2)·max(a,b,c)`, which strictly exceeds `max(a,b,c)/2`, and the
parametrization attains each semi-axis as a coordinate, so on the axis whose
dimension is the maximum the ellipsoid surface extends beyond the configured
limit. -/
theorem axis_limits_exceeded (a b c : ℝ) (ha : 0 < a) (hb : 0 < b)
    (hc : 0 < c) :
    max_range a b c = max a (max b c) ∧
    limCmds a b c =
      [DrawCmd.setLim 0 (-(max_range a b c) / 2) (max_range a b c / 2),
       DrawCmd.setLim 1 (-(max_range a b c) / 2) (max_range a b c / 2),
       DrawCmd.setLim 2 (-(max_range a b c) / 2) (max_range a b c / 2)] ∧
    max (rx a) (max (ry b) (rz c)) = Real.sqrt 3 / 2 * max_range a b c ∧
    max_range a b c / 2 < max (rx a) (max (ry b) (rz c)) ∧
    (surfacePoint a b c 0 (Real.pi / 2)).1 = rx a ∧
    (surfacePoint a b c (Real.pi / 2) (Real.pi / 2)).2.1 = ry b ∧
    (surfacePoint a b c 0 0).2.2 = rz c ∧
    (max_range a b c = a → max_range a b c / 2 < rx a) ∧
    (max_range a b c = b → max_range a b c / 2 < ry b) ∧
    (max_range a b c = c → max_range a b c / 2 < rz c) := by
  have hk : 0 ≤ k := le_of_lt k_pos
  have hmax : max (rx a) (max (ry b) (rz c)) = k * max_range a b c := by
    unfold rx ry rz max_range
    rw [mul_max_of_nonneg _ _ hk, mul_max_of_nonneg _ _ hk]
  have h1 : 1 < Real.sqrt 3 := by
    rw [show (1:ℝ) = Real.sqrt 1 from (Real.sqrt_one).symm]
    exact Real.sqrt_lt_sqrt (by norm_num) (by norm_num)
  have hmpos : 0 < max_range a b c := lt_of_lt_of_le ha (le_max_left _ _)
  have hhalf : ∀ t : ℝ, 0 < t → t / 2 < k * t := by
    intro t ht
    unfold k
    nlinarith
  refine ⟨rfl, rfl, ?_, ?_, ?_, ?_, ?_, ?_, ?_, ?_⟩
  · rw [hmax]; rfl
  · rw [hmax]; exact hhalf _ hmpos
  · simp [surfacePoint]
  · simp [surfacePoint]
  · simp [surfacePoint]
  · intro hm; rw [hm]; exact hhalf a ha
  · intro hm; rw [hm]; exact hhalf b hb
  · intro hm; rw [hm]; exact hhalf c hc

/-- Claim C10 witness at `(a, b, c) = (1, 2, 3)`. -/
theorem axis_limits_exceeded_witness :
    (0:ℝ) < 1 ∧ (0:ℝ) < 2 ∧ (0:ℝ) < 3 ∧
    (max_range 1 2 3 = max 1 (max 2 3) ∧
    limCmds 1 2 3 =
      [DrawCmd.setLim 0 (-(max_range 1 2 3) / 2) (max_range 1 2 3 / 2),
       DrawCmd.setLim 1 (-(max_range 1 2 3) / 2) (max_range 1 2 3 / 2),
       DrawCmd.setLim 2 (-(max_range 1 2 3) / 2) (max_range 1 2 3 / 2)] ∧
    max (rx 1) (max (ry 2) (rz 3)) = Real.sqrt 3 / 2 * max_range 1 2 3 ∧
    max_range 1 2 3 / 2 < max (rx 1) (max (ry 2) (rz 3)) ∧
    (surfacePoint 1 2 3 0 (Real.pi / 2)).1 = rx 1 ∧
    (surfacePoint 1 2 3 (Real.pi / 2) (Real.pi / 2)).2.1 = ry 2 ∧
    (surfacePoint 1 2 3 0 0).2.2 = rz 3 ∧
    (max_range 1 2 3 = 1 → max_range 1 2 3 / 2 < rx 1) ∧
    (max_range 1 2 3 = 2 → max_range 1 2 3 / 2 < ry 2) ∧
    (max_range 1 2 3 = 3 → max_range 1 2 3 / 2 < rz 3)) :=
  ⟨by norm_num, by norm_num, by norm_num,
    axis_limits_exceeded 1 2 3 (by norm_num) (by norm_num) (by norm_num)⟩
